import Mathlib

/-!
# defsec: provenance, block queries, adapters and the classic-resources rule

A shallow embedding of the parts of the repository that the verified
properties talk about:

* `rules/aws/rds/no_classic_resources.go` : the rule `CheckNoClassicResources`
  and its check function;
* `adapters/cloudformation/aws/sam/sam.go` : the SAM provider adapter `Adapt`;
* `providers/aws/sam/application.go` : the `Application` and `Location` types;
* the block query interface exercised by `test/block_test.go`;
* the OpenStack adapter exercised by `adapters/terraform/openstack/adapt_test.go`.

Go slices are lists, a Go struct is a structure, the zero value of a struct is
the structure whose fields are all zero, and a `for ... range` loop is a left
fold over the slice with the loop's variables as the accumulator.
-/

namespace Defsec

/-! ## Provenance -/

/-- Modelled from the spec: the source range of a node, a file identifier with a
start line and an end line (package `parsers/types`, whose declaration of
`Range` is not among the sources). -/
structure Range where
  filename : String
  startLine : Nat
  endLine : Nat
deriving DecidableEq, Repr

/-- Accessor used by `adapt_test.go`: `Range().GetStartLine()`. -/
def Range.GetStartLine (r : Range) : Nat := r.startLine

/-- Accessor used by `adapt_test.go`: `Range().GetEndLine()`. -/
def Range.GetEndLine (r : Range) : Nat := r.endLine

/-- Zero value of `Range`: empty file name, lines `0` to `0`. -/
def Range.zero : Range := ⟨"", 0, 0⟩

/-- Modelled from the spec: the provenance of a value or entity, its source range
together with its logical path (`types.Metadata`, whose declaration is not
among the sources). -/
structure Metadata where
  rnge : Range
  path : String
deriving DecidableEq, Repr

/-- Accessor used by `adapt_test.go`: `GetMetadata().Range()`. -/
def Metadata.Range (m : Metadata) : Range := m.rnge

/-- Zero value of `Metadata`. -/
def Metadata.zero : Metadata := ⟨Range.zero, ""⟩

/-- Modelled from the spec: a provenance-tracked string. `isDefault` is set by
the constructor for values that were not present in the document. -/
structure StringValue where
  value : String
  metadata : Metadata
  isDefault : Bool
deriving DecidableEq, Repr

/-- Modelled from the spec: a provenance-tracked boolean. -/
structure BoolValue where
  value : Bool
  metadata : Metadata
  isDefault : Bool
deriving DecidableEq, Repr

/-- Accessor `GetMetadata()` of a provenance-tracked string. -/
def StringValue.GetMetadata (v : StringValue) : Metadata := v.metadata

/-- Accessor `GetMetadata()` of a provenance-tracked boolean. -/
def BoolValue.GetMetadata (v : BoolValue) : Metadata := v.metadata

/-- Modelled from the spec: the constructor for a string that is not present in
the document; it takes the default payload and the range of the enclosing
block. -/
def types.StringDefault (value : String) (m : Metadata) : StringValue := ⟨value, m, true⟩

/-- Modelled from the spec: the constructor for a boolean that is not present in
the document. -/
def types.BoolDefault (value : Bool) (m : Metadata) : BoolValue := ⟨value, m, true⟩

/-- Constructor `types.String(value, metadata)` for a value read from the
document. -/
def types.String (value : String) (m : Metadata) : StringValue := ⟨value, m, false⟩

/-- Constructor `types.Bool(value, metadata)` for a value read from the
document. -/
def types.Bool (value : Bool) (m : Metadata) : BoolValue := ⟨value, m, false⟩

/-! ## The domain state tree, as far as the classic-resources rule reads it -/

namespace rds

/-- A classic DB security group: an entity that carries only its provenance
(the embedded `types.Metadata` whose address the rule hands to `results.Add`). -/
structure DBSecurityGroup where
  Metadata : Metadata
deriving DecidableEq, Repr

/-- Zero value of `DBSecurityGroup`, the initial content of a loop variable. -/
def DBSecurityGroup.zero : DBSecurityGroup := ⟨Metadata.zero⟩

/-- The `Classic` family of the RDS service. -/
structure Classic where
  DBSecurityGroups : List DBSecurityGroup
deriving DecidableEq, Repr

/-- The RDS service sub-tree; `others` stands for the resource families of the
service that the rule never names. -/
structure RDS (ρ : Type) where
  Classic : Classic
  others : ρ

end rds

/-- The AWS provider sub-tree; `others` stands for the services the rule never
names. -/
structure AWS (ρ α : Type) where
  RDS : rds.RDS ρ
  others : α

/-- The domain state tree `state.State`; `others` stands for the providers the
rule never names. -/
structure State (ρ α ω : Type) where
  AWS : AWS ρ α
  others : ω

/-! ## Results -/

namespace rules

/-- Modelled from the spec: a finding, the message and the provenance of the
flagged entity (package `rules`, whose declaration of `Result` is not among
the sources). -/
structure Result where
  description : String
  metadata : Metadata
deriving DecidableEq, Repr

/-- Location of a finding. -/
def Result.Location (r : Result) : Metadata := r.metadata

/-- The ordered collection of findings returned by a check function. -/
abbrev Results := List Result

/-- Modelled from the spec: `results.Add(description, source)` appends one finding
whose location is the provenance that `source` has when `Add` is called
(`source.GetMetadata()` is read during the call, and a finding is never
changed after it is created). `source` is the entity the pointer argument
refers to at the time of the call. -/
def Results.Add (r : Results) (description : String) (source : rds.DBSecurityGroup) :
    Results :=
  r ++ [⟨description, source.Metadata⟩]

/-- Severity levels; the rule is registered with `severity.Critical`. -/
inductive Severity where
  | Critical
  | High
  | Medium
  | Low
deriving DecidableEq, Repr

/-- Static description of a rule, the literal fields of `rules.Rule` given at
registration. The per-format example fixtures are constants of files that are
not among the sources and play no part in evaluation. -/
structure Rule where
  AVDID : String
  Provider : String
  Service : String
  ShortCode : String
  Summary : String
  Impact : String
  Resolution : String
  Explanation : String
  Links : List String
  Severity : Severity
deriving DecidableEq, Repr

/-- Memory of one run of a check function: the state tree behind the pointer `s`,
the single loop variable `group`, and the named return value `results`. -/
structure CheckFrame (ρ α ω : Type) where
  s : State ρ α ω
  group : rds.DBSecurityGroup
  results : Results

/-- A registered rule: its static description paired with its check function. -/
structure RegisteredRule (ρ α ω : Type) where
  rule : Rule
  checkFunc : State ρ α ω → CheckFrame ρ α ω

/-- Modelled from the spec: registration pairs a rule definition with its check
function and returns the handle. -/
def Register {ρ α ω : Type} (r : Rule) (f : State ρ α ω → CheckFrame ρ α ω) :
    RegisteredRule ρ α ω :=
  ⟨r, f⟩

end rules

namespace rds

open rules

/-- One iteration of the loop at lines 39 to 44: the next element of the slice is
copied into the loop variable `group`, then `results.Add` is called with the
message and the address of `group`. -/
def checkLoopBody {ρ α ω : Type} (fr : CheckFrame ρ α ω) (elem : DBSecurityGroup) :
    CheckFrame ρ α ω :=
  let fr1 : CheckFrame ρ α ω := { fr with group := elem }
  { fr1 with results := Results.Add fr1.results "Classic resources should not be used." fr1.group }

/-- The check function at lines 38 to 46: `results` starts as the nil slice, the
loop ranges over `s.AWS.RDS.Classic.DBSecurityGroups`, and the function
returns. The whole frame is returned so that the state tree after the run can
be compared with the one before. -/
def checkNoClassicResources {ρ α ω : Type} (s : State ρ α ω) : CheckFrame ρ α ω :=
  s.AWS.RDS.Classic.DBSecurityGroups.foldl checkLoopBody ⟨s, DBSecurityGroup.zero, []⟩

/-- The rule registered at lines 10 to 47. -/
def CheckNoClassicResources (ρ α ω : Type) : RegisteredRule ρ α ω :=
  Register
    { AVDID := "AVD-AWS-0081"
      Provider := "aws"
      Service := "rds"
      ShortCode := "no-classic-resources"
      Summary := "AWS Classic resource usage."
      Impact := "Classic resources are running in a shared environment with other customers"
      Resolution := "Switch to VPC resources"
      Explanation := "AWS Classic resources run in a shared environment with infrastructure owned by other AWS customers. You should run\nresources in a VPC instead."
      Links := ["https://docs.aws.amazon.com/AWSEC2/latest/UserGuide/ec2-classic-platform.html"]
      Severity := Severity.Critical }
    checkNoClassicResources

/-- Results returned by the check function of `CheckNoClassicResources`. -/
def check {ρ α ω : Type} (s : State ρ α ω) : Results :=
  ((CheckNoClassicResources ρ α ω).checkFunc s).results

end rds

end Defsec

namespace Defsec

/-! ## The SAM provider model and its CloudFormation adapter -/

namespace sam

/-- The `Location` type of `providers/aws/sam/application.go`. -/
structure Location where
  Metadata : Metadata
  ApplicationID : StringValue
  SemanticVersion : StringValue
deriving DecidableEq, Repr

/-- The `Application` type of `providers/aws/sam/application.go`. -/
structure Application where
  Metadata : Metadata
  LocationPath : StringValue
  Location : Location
deriving DecidableEq, Repr

/-- The provider object `sam.SAM`. The five collections are the fields that
`Adapt` assigns; their element types are declared in files that are not among
the sources and are type parameters here. `Applications` holds the objects of
type `Application`, and `others` stands for every further field of the
struct. -/
structure SAM (API HttpAPI Function StateMachine SimpleTable Other : Type) where
  APIs : List API
  HttpAPIs : List HttpAPI
  Functions : List Function
  StateMachines : List StateMachine
  SimpleTables : List SimpleTable
  Applications : List Application
  others : Other

/-- Zero value of `sam.SAM`, the initial content of the named result of `Adapt`:
every slice is nil and every further field has its zero value `zeroOther`. -/
def SAM.zero {API HttpAPI Function StateMachine SimpleTable Other : Type}
    (zeroOther : Other) : SAM API HttpAPI Function StateMachine SimpleTable Other :=
  { APIs := [], HttpAPIs := [], Functions := [], StateMachines := [], SimpleTables := [],
    Applications := [], others := zeroOther }

/-- The per-resource-family adapters called by `Adapt` (`getApis`, `getHttpApis`,
`getFunctions`, `getStateMachines`, `getSimpleTables`). They live in files
that are not among the sources and are taken as functions of the file
context `FC`. -/
structure SubAdapters (FC API HttpAPI Function StateMachine SimpleTable : Type) where
  getApis : FC → List API
  getHttpApis : FC → List HttpAPI
  getFunctions : FC → List Function
  getStateMachines : FC → List StateMachine
  getSimpleTables : FC → List SimpleTable

section

variable {FC API HttpAPI Function StateMachine SimpleTable Other : Type}

/-- The adapter `Adapt` of `sam.go`, lines 9 to 16: the named result `sam` starts
at its zero value, the five assignments run in the order of the source, and
`sam` is returned. -/
def Adapt (sub : SubAdapters FC API HttpAPI Function StateMachine SimpleTable)
    (zeroOther : Other) (cfFile : FC) :
    SAM API HttpAPI Function StateMachine SimpleTable Other :=
  let sam : SAM API HttpAPI Function StateMachine SimpleTable Other := SAM.zero zeroOther
  let sam := { sam with APIs := sub.getApis cfFile }
  let sam := { sam with HttpAPIs := sub.getHttpApis cfFile }
  let sam := { sam with Functions := sub.getFunctions cfFile }
  let sam := { sam with StateMachines := sub.getStateMachines cfFile }
  let sam := { sam with SimpleTables := sub.getSimpleTables cfFile }
  sam

/-- The five assignment statements of the body of `Adapt`, by the field they
assign. -/
inductive Assignment where
  | APIs
  | HttpAPIs
  | Functions
  | StateMachines
  | SimpleTables
deriving DecidableEq, Repr

/-- Order of the assignments in `sam.go`, lines 10 to 14. -/
def sourceOrder : List Assignment :=
  [Assignment.APIs, Assignment.HttpAPIs, Assignment.Functions, Assignment.StateMachines,
    Assignment.SimpleTables]

/-- Effect of one assignment statement on the named result `sam`. -/
def Assignment.exec (sub : SubAdapters FC API HttpAPI Function StateMachine SimpleTable)
    (cfFile : FC) (sam : SAM API HttpAPI Function StateMachine SimpleTable Other) :
    Assignment → SAM API HttpAPI Function StateMachine SimpleTable Other
  | Assignment.APIs => { sam with APIs := sub.getApis cfFile }
  | Assignment.HttpAPIs => { sam with HttpAPIs := sub.getHttpApis cfFile }
  | Assignment.Functions => { sam with Functions := sub.getFunctions cfFile }
  | Assignment.StateMachines => { sam with StateMachines := sub.getStateMachines cfFile }
  | Assignment.SimpleTables => { sam with SimpleTables := sub.getSimpleTables cfFile }

/-- The body of `Adapt` with its assignment statements run in the order `order`. -/
def AdaptInOrder (sub : SubAdapters FC API HttpAPI Function StateMachine SimpleTable)
    (zeroOther : Other) (cfFile : FC) (order : List Assignment) :
    SAM API HttpAPI Function StateMachine SimpleTable Other :=
  order.foldl (Assignment.exec sub cfFile) (SAM.zero zeroOther)

end

/-- A file context used to exercise the adapter: the resource types of a
template, in document order. -/
def exampleFile : List String :=
  ["AWS::Serverless::Api", "AWS::Serverless::Function", "AWS::Serverless::Api",
    "AWS::Serverless::SimpleTable"]

/-- Sub-adapters used to exercise the adapter: each one keeps the positions of
the resources of its family. -/
def exampleSubAdapters : SubAdapters (List String) Nat Nat Nat Nat Nat where
  getApis f := List.findIdxs (fun t => t == "AWS::Serverless::Api") f
  getHttpApis f := List.findIdxs (fun t => t == "AWS::Serverless::HttpApi") f
  getFunctions f := List.findIdxs (fun t => t == "AWS::Serverless::Function") f
  getStateMachines f := List.findIdxs (fun t => t == "AWS::Serverless::StateMachine") f
  getSimpleTables f := List.findIdxs (fun t => t == "AWS::Serverless::SimpleTable") f

end sam

end Defsec

namespace Defsec

/-! ## The generic document tree and its query interface -/

namespace terraform

/-- Right-hand side of an attribute as the parser hands it over: a string
literal, a boolean literal, or a reference to another node of the document. -/
inductive Expression where
  | str (s : String)
  | bool (b : Bool)
  | ref (target : String)
deriving DecidableEq, Repr

/-- Modelled from the spec: an attribute, a named value attached to a block,
with its provenance. -/
structure Attribute where
  name : String
  value : Expression
  metadata : Metadata
deriving DecidableEq, Repr

mutual

/-- Modelled from the spec: a child of a block is an attribute or a nested
block. -/
inductive Child where
  | ofAttribute (a : Attribute)
  | ofBlock (b : Block)

/-- Modelled from the spec: a block has a type, the labels that follow the type
in the document (for a Terraform resource, the resource type and the resource
name), an ordered sequence of children, and its provenance. -/
inductive Block where
  | mk (type : String) (labels : List String) (children : List Child) (metadata : Metadata)

end

/-- Type of a block. -/
def Block.type : Block → String
  | Block.mk t _ _ _ => t

/-- Labels of a block. -/
def Block.labels : Block → List String
  | Block.mk _ l _ _ => l

/-- Children of a block, in source order. -/
def Block.children : Block → List Child
  | Block.mk _ _ c _ => c

/-- Provenance of a block, `GetMetadata()`. -/
def Block.GetMetadata : Block → Metadata
  | Block.mk _ _ _ m => m

/-- The attribute held by a child, if the child is an attribute. -/
def Child.asAttribute? : Child → Option Attribute
  | Child.ofAttribute a => some a
  | Child.ofBlock _ => none

/-- The block held by a child, if the child is a nested block. -/
def Child.asBlock? : Child → Option Block
  | Child.ofAttribute _ => none
  | Child.ofBlock b => some b

/-- Direct attributes of a block, in source order. -/
def Block.GetAttributes (b : Block) : List Attribute :=
  b.children.filterMap Child.asAttribute?

/-- Modelled from the spec: `GetBlocks(type?)` returns the nested blocks,
optionally filtered by type, in source order. -/
def Block.GetBlocks (b : Block) (type : Option String) : List Block :=
  match type with
  | none => b.children.filterMap Child.asBlock?
  | some t => (b.children.filterMap Child.asBlock?).filter (fun nb => nb.type == t)

/-- Modelled from the spec: `GetAttribute(name)` returns the direct attribute of
that name, or the absent result `none`; it never fails. Names match exactly. -/
def Block.GetAttribute (b : Block) (name : String) : Option Attribute :=
  b.GetAttributes.find? (fun a => a.name == name)

/-- Modelled from the spec: `HasChild(name)` is true iff a direct attribute or a
nested block with the given name exists (package of the block type, which is
not among the sources). -/
def Block.HasChild (b : Block) (name : String) : Bool :=
  (b.GetAttribute name).isSome || !(b.GetBlocks (some name)).isEmpty

/-- Modelled from the spec: `MissingChild(name)` is the logical negation of
`HasChild(name)`. -/
def Block.MissingChild (b : Block) (name : String) : Bool :=
  !b.HasChild name

/-- The block declares the attribute `a`: `a` is one of its direct children, and
no other direct child is an attribute of the same name. This is a property of
the document, stated on the children of the block. -/
def Block.Declares (b : Block) (a : Attribute) : Prop :=
  Child.ofAttribute a ∈ b.children ∧
    ∀ other : Attribute, Child.ofAttribute other ∈ b.children → other.name = a.name → other = a

/-- A module: the blocks of its files, in source order. -/
structure Module where
  blocks : List Block

/-- The blocks of a module, `GetBlocks()`. -/
def Module.GetBlocks (m : Module) : List Block := m.blocks

/-- Modelled from the spec: the resource blocks of a module whose resource type
(the first label) is `t`, in source order. -/
def Module.GetResourcesByType (m : Module) (t : String) : List Block :=
  m.blocks.filter (fun b => b.type == "resource" && b.labels.head? == some t)

/-- A parsed document set: the modules produced by the parser. -/
abbrev Modules := List Module

/-- Provenance of a node of the file `main.tf` that spans the given lines. -/
def at_lines (path : String) (startLine endLine : Nat) : Metadata :=
  ⟨⟨"main.tf", startLine, endLine⟩, path⟩

/-- First source of `Test_IsPresentCheckOnBlock` and of the two other tests: a
bucket with `bucket_name` only. -/
def bucketWithName : Block :=
  Block.mk "resource" ["aws_s3_bucket", "my-bucket"]
    [Child.ofAttribute ⟨"bucket_name", Expression.str "bucketName", at_lines "aws_s3_bucket.my-bucket.bucket_name" 3 3⟩]
    (at_lines "aws_s3_bucket.my-bucket" 2 4)

/-- Second source of the tests: a bucket with `bucket_name` and `acl`. -/
def bucketWithAcl : Block :=
  Block.mk "resource" ["aws_s3_bucket", "my-bucket"]
    [Child.ofAttribute ⟨"bucket_name", Expression.str "bucketName", at_lines "aws_s3_bucket.my-bucket.bucket_name" 3 3⟩,
     Child.ofAttribute ⟨"acl", Expression.str "public-read", at_lines "aws_s3_bucket.my-bucket.acl" 4 4⟩]
    (at_lines "aws_s3_bucket.my-bucket" 2 5)

/-- Third source of `Test_IsPresentCheckOnBlock`: a bucket with `bucket_name`,
`acl` and a nested `logging` block. -/
def bucketWithLogging : Block :=
  Block.mk "resource" ["aws_s3_bucket", "my-bucket"]
    [Child.ofAttribute ⟨"bucket_name", Expression.str "bucketName", at_lines "aws_s3_bucket.my-bucket.bucket_name" 3 3⟩,
     Child.ofAttribute ⟨"acl", Expression.str "public-read", at_lines "aws_s3_bucket.my-bucket.acl" 4 4⟩,
     Child.ofBlock (Block.mk "logging" []
       [Child.ofAttribute ⟨"target_bucket", Expression.ref "aws_s3_bucket.log_bucket.id", at_lines "aws_s3_bucket.my-bucket.logging.target_bucket" 6 6⟩,
        Child.ofAttribute ⟨"target_prefix", Expression.str "log/", at_lines "aws_s3_bucket.my-bucket.logging.target_prefix" 7 7⟩]
       (at_lines "aws_s3_bucket.my-bucket.logging" 5 8))]
    (at_lines "aws_s3_bucket.my-bucket" 2 9)

end terraform

end Defsec

namespace Defsec

/-! ## The OpenStack provider model and its Terraform adapter -/

namespace terraform

/-- Reading of an expression as a boolean: a boolean literal, or one of the
string literals `"true"` and `"false"` (the firewall rule of `adapt_test.go`
declares `enabled = "true"` and is adapted to the boolean `true`). -/
def Expression.asBool? : Expression → Option Bool
  | Expression.bool b => some b
  | Expression.str s => if s = "true" then some true else if s = "false" then some false else none
  | Expression.ref _ => none

/-- Modelled from the spec: the raw string of an attribute is wrapped with the
provenance of the attribute; when the attribute is absent the default payload
is wrapped with the provenance of the enclosing block. An attribute that is
present but is not a string literal degrades to the default payload, located
at the attribute. -/
def AsStringValueOrDefault (attr : Option Attribute) (defaultValue : String) (parent : Block) :
    StringValue :=
  match attr with
  | none => types.StringDefault defaultValue parent.GetMetadata
  | some a =>
    match a.value with
    | Expression.str s => types.String s a.metadata
    | _ => types.StringDefault defaultValue a.metadata

/-- Modelled from the spec: the boolean counterpart of `AsStringValueOrDefault`. -/
def AsBoolValueOrDefault (attr : Option Attribute) (defaultValue : Bool) (parent : Block) :
    BoolValue :=
  match attr with
  | none => types.BoolDefault defaultValue parent.GetMetadata
  | some a =>
    match a.value.asBool? with
    | some v => types.Bool v a.metadata
    | none => types.BoolDefault defaultValue a.metadata

end terraform

namespace openstack

open terraform

/-- A compute instance, with the fields named by `adapt_test.go`. -/
structure Instance where
  Metadata : Metadata
  AdminPassword : StringValue
deriving DecidableEq, Repr

/-- A firewall rule, with the fields named by `adapt_test.go`. -/
structure FirewallRule where
  Metadata : Metadata
  Source : StringValue
  Destination : StringValue
  SourcePort : StringValue
  DestinationPort : StringValue
  Enabled : BoolValue
deriving DecidableEq, Repr

/-- The firewall of the compute service, with the fields named by
`adapt_test.go`. -/
structure Firewall where
  Metadata : Metadata
  AllowRules : List FirewallRule
deriving DecidableEq, Repr

/-- The compute service. -/
structure Compute where
  Metadata : Metadata
  Instances : List Instance
  Firewall : Firewall
deriving DecidableEq, Repr

/-- The provider object `openstack.OpenStack`. -/
structure OpenStack where
  Metadata : Metadata
  Compute : Compute
deriving DecidableEq, Repr

/-- Constants of the adapter that neither the spec nor the tests fix: the
declared default of `enabled`, and the provenance given to the aggregates
that do not come from a block of the document. -/
structure Constants where
  enabledDefault : Bool
  aggregateMetadata : Metadata

/-- Modelled from the spec: the adapter of one `openstack_compute_instance_v2`
block (`adapters/terraform/openstack`, whose adapter file is not among the
sources). The declared default of `admin_pass` is the empty string. -/
def adaptInstance (resource : Block) : Instance :=
  { Metadata := resource.GetMetadata
    AdminPassword := AsStringValueOrDefault (resource.GetAttribute "admin_pass") "" resource }

/-- Modelled from the spec: the adapter of one `openstack_fw_rule_v1` block. The
declared default of the string fields is the empty string. -/
def adaptFirewallRule (c : Constants) (resource : Block) : FirewallRule :=
  { Metadata := resource.GetMetadata
    Source := AsStringValueOrDefault (resource.GetAttribute "source_ip_address") "" resource
    Destination :=
      AsStringValueOrDefault (resource.GetAttribute "destination_ip_address") "" resource
    SourcePort := AsStringValueOrDefault (resource.GetAttribute "source_port") "" resource
    DestinationPort :=
      AsStringValueOrDefault (resource.GetAttribute "destination_port") "" resource
    Enabled := AsBoolValueOrDefault (resource.GetAttribute "enabled") c.enabledDefault resource }

/-- Whether a firewall rule block declares `action = "allow"`, which is what puts
the rule of `adapt_test.go` among the `AllowRules`. -/
def isAllowRule (resource : Block) : Bool :=
  match resource.GetAttribute "action" with
  | some a => a.value == Expression.str "allow"
  | none => false

/-- The compute instance blocks of a document, in document order. -/
def instanceResources (modules : Modules) : List Block :=
  modules.flatMap (fun m => m.GetResourcesByType "openstack_compute_instance_v2")

/-- The firewall rule blocks of a document that allow traffic, in document
order. -/
def allowRuleResources (modules : Modules) : List Block :=
  (modules.flatMap (fun m => m.GetResourcesByType "openstack_fw_rule_v1")).filter isAllowRule

/-- Modelled from the spec: the firewall is assembled from the adapted firewall
rule blocks. -/
def adaptFirewall (c : Constants) (modules : Modules) : Firewall :=
  { Metadata := c.aggregateMetadata
    AllowRules := (allowRuleResources modules).map (adaptFirewallRule c) }

/-- Modelled from the spec: the compute service is assembled from the adapted
instance blocks and the firewall. -/
def adaptCompute (c : Constants) (modules : Modules) : Compute :=
  { Metadata := c.aggregateMetadata
    Instances := (instanceResources modules).map adaptInstance
    Firewall := adaptFirewall c modules }

/-- Modelled from the spec: the entry point `Adapt(modules)` of the OpenStack
adapter. -/
def Adapt (c : Constants) (modules : Modules) : OpenStack :=
  { Metadata := c.aggregateMetadata
    Compute := adaptCompute c modules }

/-- Constants used to exercise the adapter. -/
def testConstants : Constants := ⟨true, Metadata.zero⟩

/-- The attribute `admin_pass` of `TestLines`, on line 3. -/
def adminPassAttribute : Attribute :=
  ⟨"admin_pass", Expression.str "N0tSoS3cretP4ssw0rd",
    at_lines "openstack_compute_instance_v2.my-instance.admin_pass" 3 3⟩

/-- The attribute `enabled` of `TestLines`, on line 12. -/
def enabledAttribute : Attribute :=
  ⟨"enabled", Expression.str "true", at_lines "openstack_fw_rule_v1.rule_1.enabled" 12 12⟩

/-- The instance block of `TestLines`, lines 2 to 4, with `admin_pass` on line 3. -/
def passwordInstance : Block :=
  Block.mk "resource" ["openstack_compute_instance_v2", "my-instance"]
    [Child.ofAttribute adminPassAttribute]
    (at_lines "openstack_compute_instance_v2.my-instance" 2 4)

/-- The attribute `action` of `TestLines`, on line 7. -/
def actionAttribute : Attribute :=
  ⟨"action", Expression.str "allow", at_lines "openstack_fw_rule_v1.rule_1.action" 7 7⟩

/-- The attribute `destination_port` of `TestLines`, on line 9. -/
def destinationPortAttribute : Attribute :=
  ⟨"destination_port", Expression.str "22",
    at_lines "openstack_fw_rule_v1.rule_1.destination_port" 9 9⟩

/-- The firewall rule block of `TestLines`, lines 6 to 13. -/
def firewallRule : Block :=
  Block.mk "resource" ["openstack_fw_rule_v1", "rule_1"]
    [Child.ofAttribute actionAttribute,
     Child.ofAttribute ⟨"protocol", Expression.str "tcp", at_lines "openstack_fw_rule_v1.rule_1.protocol" 8 8⟩,
     Child.ofAttribute destinationPortAttribute,
     Child.ofAttribute ⟨"destination_ip_address", Expression.str "10.10.10.1",
      at_lines "openstack_fw_rule_v1.rule_1.destination_ip_address" 10 10⟩,
     Child.ofAttribute ⟨"source_ip_address", Expression.str "10.10.10.2",
      at_lines "openstack_fw_rule_v1.rule_1.source_ip_address" 11 11⟩,
     Child.ofAttribute enabledAttribute]
    (at_lines "openstack_fw_rule_v1.rule_1" 6 13)

/-- An attribute `enabled = false` on line 17. -/
def disabledAttribute : Attribute :=
  ⟨"enabled", Expression.bool false, at_lines "openstack_fw_rule_v1.rule_2.enabled" 17 17⟩

/-- A firewall rule block that denies traffic, lines 15 to 18. -/
def denyRule : Block :=
  Block.mk "resource" ["openstack_fw_rule_v1", "rule_2"]
    [Child.ofAttribute ⟨"action", Expression.str "deny", at_lines "openstack_fw_rule_v1.rule_2.action" 16 16⟩,
     Child.ofAttribute disabledAttribute]
    (at_lines "openstack_fw_rule_v1.rule_2" 15 18)

/-- The document of `TestLines`, followed by a module with `denyRule`. -/
def surroundedModules : Modules := [⟨[passwordInstance, firewallRule]⟩, ⟨[denyRule]⟩]

/-- The document of `TestLines`. -/
def testLinesModules : Modules := [⟨[passwordInstance, firewallRule]⟩]

/-- The instance block of the case `No plaintext password` of `TestFields`, lines
2 to 3, without `admin_pass`. -/
def bareInstance : Block :=
  Block.mk "resource" ["openstack_compute_instance_v2", "my-instance"] []
    (at_lines "openstack_compute_instance_v2.my-instance" 2 3)

/-- A document with the block of `No plaintext password` followed by the
firewall rule of `TestLines`. -/
def noPasswordModules : Modules := [⟨[bareInstance]⟩, ⟨[firewallRule]⟩]

end openstack

end Defsec

namespace Defsec

open rules rds

/-! ## The classic-resources rule: lemmas on the loop -/

/-- Frame reached from `fr` after the loop has consumed `gs`: the state tree is
the one of `fr`, and one finding has been appended for each element of `gs`,
in order, located at the provenance of that element. -/
theorem checkLoop_foldl {ρ α ω : Type} (gs : List DBSecurityGroup) (fr : CheckFrame ρ α ω) :
    (gs.foldl checkLoopBody fr).s = fr.s ∧
      (gs.foldl checkLoopBody fr).results =
        fr.results ++ gs.map (fun g => ⟨"Classic resources should not be used.", g.Metadata⟩) := by
  induction gs generalizing fr with
  | nil => simp
  | cons g rest ih =>
    obtain ⟨hs, hr⟩ := ih (checkLoopBody fr g)
    refine ⟨?_, ?_⟩
    · simpa [checkLoopBody] using hs
    · rw [List.foldl_cons, hr]
      simp [checkLoopBody, Results.Add]

/-- Findings of the rule, in closed form. -/
theorem check_eq_map {ρ α ω : Type} (s : State ρ α ω) :
    check s = s.AWS.RDS.Classic.DBSecurityGroups.map
      (fun g => ⟨"Classic resources should not be used.", g.Metadata⟩) := by
  have h := (checkLoop_foldl s.AWS.RDS.Classic.DBSecurityGroups
    (⟨s, DBSecurityGroup.zero, []⟩ : CheckFrame ρ α ω)).2
  simpa [check, CheckNoClassicResources, Register, checkNoClassicResources] using h

/-! ## The classic-resources rule: verified properties -/

/-- C1: for every state, the check function of `CheckNoClassicResources` returns
exactly as many results as there are classic DB security groups, and it
returns no result exactly when the collection is empty. -/
theorem check_length_eq_groups {ρ α ω : Type} (s : State ρ α ω) :
    (check s).length = s.AWS.RDS.Classic.DBSecurityGroups.length ∧
      (s.AWS.RDS.Classic.DBSecurityGroups = [] ↔ check s = []) := by
  rw [check_eq_map]
  simp

/-- C2: for every state and every index, the result at that index is located at
the provenance of the group at the same index (and there is no result at an
index where there is no group); hence the locations of the results, in order,
are the provenances of the groups, in order. -/
theorem check_location_eq_group_metadata {ρ α ω : Type} (s : State ρ α ω) :
    (∀ i : Nat, ((check s)[i]?).map Result.Location =
        (s.AWS.RDS.Classic.DBSecurityGroups[i]?).map DBSecurityGroup.Metadata) ∧
      (check s).map Result.Location =
        s.AWS.RDS.Classic.DBSecurityGroups.map DBSecurityGroup.Metadata := by
  rw [check_eq_map]
  refine ⟨fun i => ?_, ?_⟩
  · rw [List.getElem?_map]
    cases s.AWS.RDS.Classic.DBSecurityGroups[i]? <;> rfl
  · simp [Result.Location, Function.comp_def]

/-- C9: the check function of `CheckNoClassicResources` only reads the state
tree: the tree held by the frame after the run equals the tree it was given,
so every field, the classic DB security groups included, is unchanged. -/
theorem check_state_unchanged {ρ α ω : Type} (s : State ρ α ω) :
    ((CheckNoClassicResources ρ α ω).checkFunc s).s = s ∧
      ((CheckNoClassicResources ρ α ω).checkFunc s).s.AWS.RDS.Classic.DBSecurityGroups =
        s.AWS.RDS.Classic.DBSecurityGroups := by
  have h := (checkLoop_foldl s.AWS.RDS.Classic.DBSecurityGroups
    (⟨s, DBSecurityGroup.zero, []⟩ : CheckFrame ρ α ω)).1
  have h2 : ((CheckNoClassicResources ρ α ω).checkFunc s).s = s := by
    simpa [CheckNoClassicResources, Register, checkNoClassicResources] using h
  exact ⟨h2, by rw [h2]⟩

end Defsec

namespace Defsec

namespace sam

/-! ## The SAM adapter: verified properties -/

section

variable {FC API HttpAPI Function StateMachine SimpleTable Other : Type}

/-- Two assignment statements of `Adapt` commute: they write different fields,
or they are the same statement. -/
theorem Assignment.exec_comm (sub : SubAdapters FC API HttpAPI Function StateMachine SimpleTable)
    (cfFile : FC) (sam : SAM API HttpAPI Function StateMachine SimpleTable Other)
    (x y : Assignment) :
    Assignment.exec sub cfFile (Assignment.exec sub cfFile sam x) y =
      Assignment.exec sub cfFile (Assignment.exec sub cfFile sam y) x := by
  cases x <;> cases y <;> rfl

/-- Running the assignments in the order of the source is `Adapt`. -/
theorem AdaptInOrder_sourceOrder (sub : SubAdapters FC API HttpAPI Function StateMachine SimpleTable)
    (zeroOther : Other) (cfFile : FC) :
    AdaptInOrder sub zeroOther cfFile sourceOrder = Adapt sub zeroOther cfFile := rfl

/-- C7: the object returned by `Adapt` has each of its five collections equal to
the output of the matching sub-adapter on the same file context, and running
the five assignments in any other order returns the same object. -/
theorem Adapt_fields_and_order (sub : SubAdapters FC API HttpAPI Function StateMachine SimpleTable)
    (zeroOther : Other) (cfFile : FC) (order : List Assignment)
    (horder : order.Perm sourceOrder) :
    (Adapt sub zeroOther cfFile).APIs = sub.getApis cfFile ∧
      (Adapt sub zeroOther cfFile).HttpAPIs = sub.getHttpApis cfFile ∧
      (Adapt sub zeroOther cfFile).Functions = sub.getFunctions cfFile ∧
      (Adapt sub zeroOther cfFile).StateMachines = sub.getStateMachines cfFile ∧
      (Adapt sub zeroOther cfFile).SimpleTables = sub.getSimpleTables cfFile ∧
      AdaptInOrder sub zeroOther cfFile order = Adapt sub zeroOther cfFile := by
  refine ⟨rfl, rfl, rfl, rfl, rfl, ?_⟩
  rw [← AdaptInOrder_sourceOrder]
  exact List.Perm.foldl_eq' horder
    (fun x _ y _ z => Assignment.exec_comm sub cfFile z x y) (SAM.zero zeroOther)

/-- C10: `Adapt` assigns only the five collections: the list of applications of
the returned object is the nil slice, so no `Application` is in it, and every
further field has its zero value. -/
theorem Adapt_other_fields_zero (sub : SubAdapters FC API HttpAPI Function StateMachine SimpleTable)
    (zeroOther : Other) (cfFile : FC) :
    (Adapt sub zeroOther cfFile).Applications = [] ∧
      (∀ app : Application, app ∉ (Adapt sub zeroOther cfFile).Applications) ∧
      (Adapt sub zeroOther cfFile).others = zeroOther ∧
      Adapt sub zeroOther cfFile =
        { (SAM.zero zeroOther : SAM API HttpAPI Function StateMachine SimpleTable Other) with
          APIs := sub.getApis cfFile
          HttpAPIs := sub.getHttpApis cfFile
          Functions := sub.getFunctions cfFile
          StateMachines := sub.getStateMachines cfFile
          SimpleTables := sub.getSimpleTables cfFile } := by
  refine ⟨rfl, ?_, rfl, rfl⟩
  intro app h
  exact List.not_mem_nil app h

end

/-- Witness for C7 on `exampleFile`, with the assignments run in the reverse of
the order of the source. -/
theorem Adapt_fields_and_order_witness :
    sourceOrder.reverse.Perm sourceOrder ∧
      (Adapt exampleSubAdapters () exampleFile).APIs = [0, 2] ∧
      AdaptInOrder exampleSubAdapters () exampleFile sourceOrder.reverse =
        Adapt exampleSubAdapters () exampleFile :=
  ⟨List.reverse_perm sourceOrder,
    ((Adapt_fields_and_order exampleSubAdapters () exampleFile sourceOrder.reverse
      (List.reverse_perm sourceOrder)).1).trans (by decide),
    (Adapt_fields_and_order exampleSubAdapters () exampleFile sourceOrder.reverse
      (List.reverse_perm sourceOrder)).2.2.2.2.2⟩

end sam

end Defsec

namespace Defsec

namespace terraform

/-! ## The block query interface: verified properties -/

/-- The name lookup of `GetAttribute` finds something iff some direct attribute
has the name. -/
theorem GetAttribute_isSome_iff (b : Block) (n : String) :
    (b.GetAttribute n).isSome = true ↔
      ∃ a : Attribute, Child.ofAttribute a ∈ b.children ∧ a.name = n := by
  simp only [Block.GetAttribute, Block.GetAttributes, List.find?_isSome, List.mem_filterMap,
    beq_iff_eq]
  constructor
  · rintro ⟨a, ⟨c, hc, hca⟩, hn⟩
    cases c with
    | ofAttribute a0 =>
      simp only [Child.asAttribute?, Option.some.injEq] at hca
      exact ⟨a, hca ▸ hc, hn⟩
    | ofBlock nb => simp [Child.asAttribute?] at hca
  · rintro ⟨a, ha, hn⟩
    exact ⟨a, ⟨Child.ofAttribute a, ha, rfl⟩, hn⟩

/-- The typed lookup of `GetBlocks` finds something iff some nested block has the
type. -/
theorem GetBlocks_nonempty_iff (b : Block) (n : String) :
    (!(b.GetBlocks (some n)).isEmpty) = true ↔
      ∃ nb : Block, Child.ofBlock nb ∈ b.children ∧ nb.type = n := by
  simp only [Block.GetBlocks, Bool.not_eq_true', List.isEmpty_eq_false_iff_exists_mem,
    List.mem_filter, List.mem_filterMap, beq_iff_eq]
  constructor
  · rintro ⟨nb, ⟨c, hc, hcb⟩, hn⟩
    cases c with
    | ofAttribute a => simp [Child.asBlock?] at hcb
    | ofBlock nb0 =>
      simp only [Child.asBlock?, Option.some.injEq] at hcb
      exact ⟨nb, hcb ▸ hc, hn⟩
  · rintro ⟨nb, hb, hn⟩
    exact ⟨nb, ⟨Child.ofBlock nb, hb, rfl⟩, hn⟩

/-- C3: for every block and every name, `HasChild` equals the negation of
`MissingChild`. -/
theorem HasChild_eq_not_MissingChild (b : Block) (n : String) :
    b.HasChild n = !b.MissingChild n := by
  simp [Block.MissingChild]

/-- C4: for every block and every name, `HasChild` is true iff the block has a
direct attribute of exactly that name or a direct nested block of exactly
that type; on the blocks of the tests it is true for `bucket_name`, `acl` and
`logging` where they are declared and false for `acl` and `logging` where
they are not, and it does not look inside nested blocks. -/
theorem HasChild_iff_direct_child :
    (∀ (b : Block) (n : String), b.HasChild n = true ↔
        ((∃ a : Attribute, Child.ofAttribute a ∈ b.children ∧ a.name = n) ∨
          (∃ nb : Block, Child.ofBlock nb ∈ b.children ∧ nb.type = n))) ∧
      bucketWithName.HasChild "bucket_name" = true ∧
      bucketWithAcl.HasChild "acl" = true ∧
      bucketWithLogging.HasChild "logging" = true ∧
      bucketWithName.HasChild "acl" = false ∧
      bucketWithAcl.HasChild "logging" = false ∧
      bucketWithLogging.HasChild "target_prefix" = false ∧
      bucketWithAcl.HasChild "ACL" = false := by
  refine ⟨fun b n => ?_, by decide, by decide, by decide, by decide, by decide, by decide,
    by decide⟩
  rw [Block.HasChild, Bool.or_eq_true, GetAttribute_isSome_iff, GetBlocks_nonempty_iff]

end terraform

end Defsec

namespace Defsec

namespace openstack

open terraform

/-! ## The OpenStack adapter: verified properties -/

/-- A string attribute that is present is adapted to its literal, located at the
attribute. -/
theorem AsStringValueOrDefault_present (a : Attribute) (v d : String) (parent : Block)
    (hv : a.value = Expression.str v) :
    AsStringValueOrDefault (some a) d parent = types.String v a.metadata := by
  simp [AsStringValueOrDefault, hv]

/-- A boolean attribute that is present is adapted to the boolean it denotes,
located at the attribute. -/
theorem AsBoolValueOrDefault_present (a : Attribute) (v d : Bool) (parent : Block)
    (hv : a.value.asBool? = some v) :
    AsBoolValueOrDefault (some a) d parent = types.Bool v a.metadata := by
  simp [AsBoolValueOrDefault, hv]

/-- The instance adapted at a position is the adapted block at that position. -/
theorem Instances_getElem? (c : Constants) (modules : Modules) (i : Nat) :
    (Adapt c modules).Compute.Instances[i]? =
      ((instanceResources modules)[i]?).map adaptInstance := by
  simp [Adapt, adaptCompute]

/-- The allow rule adapted at a position is the adapted block at that position. -/
theorem AllowRules_getElem? (c : Constants) (modules : Modules) (i : Nat) :
    (Adapt c modules).Compute.Firewall.AllowRules[i]? =
      ((allowRuleResources modules)[i]?).map (adaptFirewallRule c) := by
  simp [Adapt, adaptCompute, adaptFirewall]

/-- The attribute a block declares is the one `GetAttribute` returns for its
name. -/
theorem GetAttribute_of_Declares (b : Block) (a : Attribute) (h : b.Declares a) :
    b.GetAttribute a.name = some a := by
  obtain ⟨hmem, huniq⟩ := h
  have hin : a ∈ b.GetAttributes :=
    List.mem_filterMap.mpr ⟨Child.ofAttribute a, hmem, rfl⟩
  cases hfind : b.GetAttribute a.name with
  | none =>
    have hnone := List.find?_eq_none.mp hfind a hin
    simp at hnone
  | some x =>
    have hx : x ∈ b.GetAttributes := List.mem_of_find?_eq_some hfind
    have hname : x.name = a.name := by
      have := List.find?_some hfind
      simpa using this
    obtain ⟨ch, hch, hcx⟩ := List.mem_filterMap.mp hx
    cases ch with
    | ofAttribute a0 =>
      simp only [Child.asAttribute?, Option.some.injEq] at hcx
      subst hcx
      rw [huniq a0 hch hname]
    | ofBlock nb => simp [Child.asAttribute?] at hcx

/-- Every resource block of the document whose resource type is `t` is among the
resources of type `t` of its module. -/
theorem mem_GetResourcesByType (m : Module) (resource : Block) (t : String)
    (hres : resource ∈ m.GetBlocks) (htype : resource.type = "resource")
    (hlabel : resource.labels.head? = some t) :
    resource ∈ m.GetResourcesByType t := by
  refine List.mem_filter.mpr ⟨hres, ?_⟩
  simp [htype, hlabel]

/-- C5: in every document, for every resource block `resource` of any module and
every attribute `a` that the block declares on the single line `L`. If the
block is an `openstack_compute_instance_v2`, the instance adapted from it is
among the instances returned by `Adapt`, and if `a` is `admin_pass` with a
string literal, the `AdminPassword` of that instance carries the literal and
a range from `L` to `L`. If the block is an `openstack_fw_rule_v1`, whatever
its action, the rule adapted from it carries in `DestinationPort`,
`Destination`, `Source` the string literal of `destination_port`,
`destination_ip_address`, `source_ip_address`, and in `Enabled` the boolean
written by `enabled` (a boolean literal, or one of the strings `"true"` and
`"false"`), each with a range from `L` to `L`; and when the block declares
`action = "allow"` that rule is among the `AllowRules` returned by `Adapt`.
The other blocks and modules of the document are arbitrary. -/
theorem Adapt_single_line_attribute (c : Constants) (modules : Modules) (m : Module)
    (resource : Block) (a : Attribute) (L : Nat)
    (hm : m ∈ modules) (hres : resource ∈ m.GetBlocks) (htype : resource.type = "resource")
    (ha : resource.Declares a)
    (hstart : a.metadata.Range.GetStartLine = L) (hend : a.metadata.Range.GetEndLine = L) :
    (resource.labels.head? = some "openstack_compute_instance_v2" →
      adaptInstance resource ∈ (Adapt c modules).Compute.Instances ∧
      (a.name = "admin_pass" → ∀ v : String, a.value = Expression.str v →
        (adaptInstance resource).AdminPassword.value = v ∧
        (adaptInstance resource).AdminPassword.GetMetadata.Range.GetStartLine = L ∧
        (adaptInstance resource).AdminPassword.GetMetadata.Range.GetEndLine = L)) ∧
    (resource.labels.head? = some "openstack_fw_rule_v1" →
      (a.name = "destination_port" → ∀ v : String, a.value = Expression.str v →
        (adaptFirewallRule c resource).DestinationPort.value = v ∧
        (adaptFirewallRule c resource).DestinationPort.GetMetadata.Range.GetStartLine = L ∧
        (adaptFirewallRule c resource).DestinationPort.GetMetadata.Range.GetEndLine = L) ∧
      (a.name = "destination_ip_address" → ∀ v : String, a.value = Expression.str v →
        (adaptFirewallRule c resource).Destination.value = v ∧
        (adaptFirewallRule c resource).Destination.GetMetadata.Range.GetStartLine = L ∧
        (adaptFirewallRule c resource).Destination.GetMetadata.Range.GetEndLine = L) ∧
      (a.name = "source_ip_address" → ∀ v : String, a.value = Expression.str v →
        (adaptFirewallRule c resource).Source.value = v ∧
        (adaptFirewallRule c resource).Source.GetMetadata.Range.GetStartLine = L ∧
        (adaptFirewallRule c resource).Source.GetMetadata.Range.GetEndLine = L) ∧
      (a.name = "enabled" →
        ∀ v : Bool,
          (a.value = Expression.bool v ∨ (a.value = Expression.str "true" ∧ v = true) ∨
            (a.value = Expression.str "false" ∧ v = false)) →
          (adaptFirewallRule c resource).Enabled.value = v ∧
          (adaptFirewallRule c resource).Enabled.GetMetadata.Range.GetStartLine = L ∧
          (adaptFirewallRule c resource).Enabled.GetMetadata.Range.GetEndLine = L) ∧
      (∀ act : Attribute, resource.Declares act → act.name = "action" →
        act.value = Expression.str "allow" →
          adaptFirewallRule c resource ∈ (Adapt c modules).Compute.Firewall.AllowRules)) := by
  have hget := GetAttribute_of_Declares resource a ha
  refine ⟨fun hlabel => ⟨?_, fun hname v hv => ?_⟩,
    fun hlabel => ⟨fun hname v hv => ?_, fun hname v hv => ?_, fun hname v hv => ?_,
      fun hname v hv => ?_, fun act hact hactname hactvalue => ?_⟩⟩
  · refine List.mem_map.mpr ⟨resource, ?_, rfl⟩
    exact List.mem_flatMap.mpr ⟨m, hm, mem_GetResourcesByType m resource _ hres htype hlabel⟩
  · rw [hname] at hget
    simp only [adaptInstance, hget, AsStringValueOrDefault_present a v "" resource hv]
    exact ⟨rfl, hstart, hend⟩
  · rw [hname] at hget
    simp only [adaptFirewallRule, hget, AsStringValueOrDefault_present a v "" resource hv]
    exact ⟨rfl, hstart, hend⟩
  · rw [hname] at hget
    simp only [adaptFirewallRule, hget, AsStringValueOrDefault_present a v "" resource hv]
    exact ⟨rfl, hstart, hend⟩
  · rw [hname] at hget
    simp only [adaptFirewallRule, hget, AsStringValueOrDefault_present a v "" resource hv]
    exact ⟨rfl, hstart, hend⟩
  · rw [hname] at hget
    have hbool : a.value.asBool? = some v := by
      rcases hv with h | ⟨h, hv2⟩ | ⟨h, hv2⟩
      · rw [h]; rfl
      · rw [h, hv2]; rfl
      · rw [h, hv2]; rfl
    simp only [adaptFirewallRule, hget,
      AsBoolValueOrDefault_present a v c.enabledDefault resource hbool]
    exact ⟨rfl, hstart, hend⟩
  · refine List.mem_map.mpr ⟨resource, ?_, rfl⟩
    refine List.mem_filter.mpr ⟨?_, ?_⟩
    · exact List.mem_flatMap.mpr ⟨m, hm, mem_GetResourcesByType m resource _ hres htype hlabel⟩
    · have hgetact := GetAttribute_of_Declares resource act hact
      rw [hactname] at hgetact
      simp [isAllowRule, hgetact, hactvalue]

/-- C6: in every document, if the compute instance block at position `i` omits
`admin_pass`, the `AdminPassword` of the instance adapted at position `i` is
the empty string with the provenance of the block; if the firewall rule block
at position `i` omits `source_port`, the `SourcePort` of the rule adapted at
position `i` is the empty string with the provenance of the block. In both
cases the range of the field is the range of the block, so it is not the zero
range unless the range of the block is. -/
theorem Adapt_omitted_string_attribute (c : Constants) (modules : Modules) (i : Nat)
    (resource : Block) :
    ((instanceResources modules)[i]? = some resource →
      resource.GetAttribute "admin_pass" = none →
        ∃ inst : Instance, (Adapt c modules).Compute.Instances[i]? = some inst ∧
          inst.AdminPassword.value = "" ∧
          inst.AdminPassword.GetMetadata = resource.GetMetadata ∧
          inst.AdminPassword.GetMetadata.Range = resource.GetMetadata.Range ∧
          (resource.GetMetadata.Range ≠ Range.zero →
            inst.AdminPassword.GetMetadata.Range ≠ Range.zero)) ∧
    ((allowRuleResources modules)[i]? = some resource →
      resource.GetAttribute "source_port" = none →
        ∃ rule : FirewallRule, (Adapt c modules).Compute.Firewall.AllowRules[i]? = some rule ∧
          rule.SourcePort.value = "" ∧
          rule.SourcePort.GetMetadata = resource.GetMetadata ∧
          rule.SourcePort.GetMetadata.Range = resource.GetMetadata.Range ∧
          (resource.GetMetadata.Range ≠ Range.zero →
            rule.SourcePort.GetMetadata.Range ≠ Range.zero)) := by
  refine ⟨fun hres hattr => ?_, fun hres hattr => ?_⟩
  · refine ⟨adaptInstance resource, by rw [Instances_getElem?, hres]; rfl, ?_⟩
    have hfield : (adaptInstance resource).AdminPassword =
        types.StringDefault "" resource.GetMetadata := by
      simp [adaptInstance, hattr, AsStringValueOrDefault]
    rw [hfield]
    exact ⟨rfl, rfl, rfl, fun h => h⟩
  · refine ⟨adaptFirewallRule c resource, by rw [AllowRules_getElem?, hres]; rfl, ?_⟩
    have hfield : (adaptFirewallRule c resource).SourcePort =
        types.StringDefault "" resource.GetMetadata := by
      simp [adaptFirewallRule, hattr, AsStringValueOrDefault]
    rw [hfield]
    exact ⟨rfl, rfl, rfl, fun h => h⟩

/-- The instance block of `TestLines` declares `admin_pass`. -/
theorem passwordInstance_Declares : passwordInstance.Declares adminPassAttribute := by
  refine ⟨by simp [passwordInstance, Block.children], fun other hmem _ => ?_⟩
  simpa [passwordInstance, Block.children] using hmem

/-- The firewall rule block of `TestLines` declares `enabled` on line 12. -/
theorem firewallRule_Declares_enabled : firewallRule.Declares enabledAttribute := by
  refine ⟨by simp [firewallRule, Block.children], fun other hmem hname => ?_⟩
  simp only [firewallRule, Block.children, List.mem_cons, Child.ofAttribute.injEq,
    List.mem_nil_iff, or_false] at hmem
  rcases hmem with h | h | h | h | h | h <;> subst h <;> first | rfl | exact absurd hname (by decide)

/-- The firewall rule block of `TestLines` declares `action` on line 7. -/
theorem firewallRule_Declares_action : firewallRule.Declares actionAttribute := by
  refine ⟨by simp [firewallRule, Block.children], fun other hmem hname => ?_⟩
  simp only [firewallRule, Block.children, List.mem_cons, Child.ofAttribute.injEq,
    List.mem_nil_iff, or_false] at hmem
  rcases hmem with h | h | h | h | h | h <;> subst h <;> first | rfl | exact absurd hname (by decide)

/-- The deny rule block declares `enabled` on line 17. -/
theorem denyRule_Declares_enabled : denyRule.Declares disabledAttribute := by
  refine ⟨by simp [denyRule, Block.children], fun other hmem hname => ?_⟩
  simp only [denyRule, Block.children, List.mem_cons, Child.ofAttribute.injEq,
    List.mem_nil_iff, or_false] at hmem
  rcases hmem with h | h <;> subst h <;> first | rfl | exact absurd hname (by decide)

/-- Witness for C5 on the document of `TestLines` followed by a module with a deny
rule: `admin_pass` on line 3 of the instance block, `enabled = "true"` on line
12 of the allow rule, and `enabled = false` on line 17 of the deny rule. -/
theorem Adapt_single_line_attribute_witness :
    (adaptInstance passwordInstance ∈ (Adapt testConstants surroundedModules).Compute.Instances ∧
      (adaptInstance passwordInstance).AdminPassword.value = "N0tSoS3cretP4ssw0rd" ∧
      (adaptInstance passwordInstance).AdminPassword.GetMetadata.Range.GetStartLine = 3 ∧
      (adaptInstance passwordInstance).AdminPassword.GetMetadata.Range.GetEndLine = 3) ∧
    (adaptFirewallRule testConstants firewallRule ∈
        (Adapt testConstants surroundedModules).Compute.Firewall.AllowRules ∧
      (adaptFirewallRule testConstants firewallRule).Enabled.value = true ∧
      (adaptFirewallRule testConstants firewallRule).Enabled.GetMetadata.Range.GetStartLine = 12 ∧
      (adaptFirewallRule testConstants firewallRule).Enabled.GetMetadata.Range.GetEndLine = 12) ∧
    ((adaptFirewallRule testConstants denyRule).Enabled.value = false ∧
      (adaptFirewallRule testConstants denyRule).Enabled.GetMetadata.Range.GetStartLine = 17 ∧
      (adaptFirewallRule testConstants denyRule).Enabled.GetMetadata.Range.GetEndLine = 17) :=
  ⟨⟨((Adapt_single_line_attribute testConstants surroundedModules ⟨[passwordInstance, firewallRule]⟩
        passwordInstance adminPassAttribute 3 (by simp [surroundedModules])
        (by simp [Module.GetBlocks]) rfl passwordInstance_Declares rfl rfl).1 rfl).1,
      ((Adapt_single_line_attribute testConstants surroundedModules ⟨[passwordInstance, firewallRule]⟩
        passwordInstance adminPassAttribute 3 (by simp [surroundedModules])
        (by simp [Module.GetBlocks]) rfl passwordInstance_Declares rfl rfl).1 rfl).2 rfl
        "N0tSoS3cretP4ssw0rd" rfl⟩,
    ⟨((Adapt_single_line_attribute testConstants surroundedModules ⟨[passwordInstance, firewallRule]⟩
        firewallRule enabledAttribute 12 (by simp [surroundedModules])
        (by simp [Module.GetBlocks]) rfl firewallRule_Declares_enabled rfl rfl).2 rfl).2.2.2.2
        actionAttribute firewallRule_Declares_action rfl rfl,
      ((Adapt_single_line_attribute testConstants surroundedModules ⟨[passwordInstance, firewallRule]⟩
        firewallRule enabledAttribute 12 (by simp [surroundedModules])
        (by simp [Module.GetBlocks]) rfl firewallRule_Declares_enabled rfl rfl).2 rfl).2.2.2.1 rfl
        true (Or.inr (Or.inl ⟨rfl, rfl⟩))⟩,
    ((Adapt_single_line_attribute testConstants surroundedModules ⟨[denyRule]⟩
        denyRule disabledAttribute 17 (by simp [surroundedModules])
        (by simp [Module.GetBlocks]) rfl denyRule_Declares_enabled rfl rfl).2 rfl).2.2.2.1 rfl
        false (Or.inl rfl)⟩

/-- Witness for C6 on a document whose instance block omits `admin_pass` and
whose firewall rule block omits `source_port`. -/
theorem Adapt_omitted_string_attribute_witness :
    (∃ inst : Instance,
      (Adapt testConstants noPasswordModules).Compute.Instances[0]? = some inst ∧
        inst.AdminPassword.value = "" ∧
        inst.AdminPassword.GetMetadata.Range = ⟨"main.tf", 2, 3⟩) ∧
    (∃ rule : FirewallRule,
      (Adapt testConstants noPasswordModules).Compute.Firewall.AllowRules[0]? = some rule ∧
        rule.SourcePort.value = "" ∧
        rule.SourcePort.GetMetadata.Range = ⟨"main.tf", 6, 13⟩ ∧
        rule.SourcePort.GetMetadata.Range ≠ Range.zero) :=
  ⟨match (Adapt_omitted_string_attribute testConstants noPasswordModules 0 bareInstance).1
      rfl (by decide) with
    | ⟨inst, hinst, hvalue, _, hrange, _⟩ => ⟨inst, hinst, hvalue, hrange.trans (by decide)⟩,
    match (Adapt_omitted_string_attribute testConstants noPasswordModules 0 firewallRule).2
      rfl (by decide) with
    | ⟨rule, hrule, hvalue, _, hrange, hnonzero⟩ =>
      ⟨rule, hrule, hvalue, hrange.trans (by decide), hnonzero (by decide)⟩⟩

end openstack

end Defsec
